import Mathlib

/-!
Verification of the asset-URL helper module `src/helpers/url.js` of villagerdb.

Shallow embedding conventions:
* JavaScript strings are modelled as `List Char` (`Str`); `String.split('.')`
  with a one-character separator is the character-level split `splitOnDot`,
  and `Array.prototype.join('.')` is `joinDot`.
* The filesystem is a parameter `fsm : Str → Option Str`, mapping a resolved
  (absolute) path to the file contents when the file exists.  `fs.existsSync`
  and `fs.readFileSync` resolve their path argument against the current
  working directory `cwd` first, as node does for relative paths: a path of
  the form `./rest` denotes `cwd ++ rest`.
* `path.join(process.cwd(), 'public', u)` is `pathJoinPublic cwd u`:
  concatenation with a single separator inserted when `u` does not already
  begin with one (no `..`/`.` normalisation is needed by this module's
  callers, which only pass URL-shaped suffixes).
* The MD5 hex digest (an external crypto collaborator) is a parameter
  `md5 : Str → Str` of every function that hashes.
* JavaScript truthiness on an `undefined`-or-string value is `truthyOpt`:
  the value is a string and is non-empty.
* Functions whose claims mention observable effect counts are instrumented:
  `getImageUrlP` additionally returns the list of paths probed with
  `fs.existsSync`, in probe order, and `computeStaticAssetUrlC`,
  `getEntityImageDataC`, `getCacheBustedUrlC` additionally return the number
  of `createFileHash` invocations they perform.
-/

namespace VillagerDb

/-- A JavaScript string: a list of characters. -/
abbrev Str := List Char

/-- Embed a Lean string literal as a JS string. -/
def str (s : String) : Str := s.toList

/-- A JavaScript value, as far as this module inspects values with
`typeof x !== 'string'`: a string, `undefined`, a number, or a boolean. -/
inductive JsVal where
  | str (s : Str)
  | undefinedV
  | num (n : Int)
  | boolean (b : Bool)
deriving DecidableEq

/-- Whether `typeof v === 'string'`. -/
def JsVal.isStr : JsVal → Bool
  | .str _ => true
  | _ => false

/-- A JS expression that is either `undefined` or a string, passed as an
argument (e.g. `getImageUrl(...)` passed to `computeStaticAssetUrl`). -/
def optToJs : Option Str → JsVal
  | some s => .str s
  | none => .undefinedV

/-- JS truthiness of an `undefined`-or-string value. -/
def truthyOpt : Option Str → Bool
  | some s => !s.isEmpty
  | none => false

/-- Source constant `THUMB = 'thumb'`. -/
def THUMB : Str := str "thumb"

/-- Source constant `MEDIUM = 'medium'`. -/
def MEDIUM : Str := str "medium"

/-- Source constant `FULL = 'full'`. -/
def FULL : Str := str "full"

/-- Source constant `HASH_LENGTH = 7`. -/
def HASH_LENGTH : Nat := 7

/-- Resolution of a possibly-relative path against the working directory, as
node's `fs` does: `./rest` denotes `cwd ++ rest`, anything else is taken as
already resolved. -/
def resolvePath (cwd p : Str) : Str :=
  match p with
  | '.' :: rest => cwd ++ rest
  | _ => p

/-- Model of `fs.existsSync(p)` over the filesystem map `fsm`. -/
def existsSync (cwd : Str) (fsm : Str → Option Str) (p : Str) : Bool :=
  (fsm (resolvePath cwd p)).isSome

/-- Model of `fs.readFileSync(p, 'utf8')` over the filesystem map `fsm`
(only ever called on existing files by the source). -/
def readFileSync (cwd : Str) (fsm : Str → Option Str) (p : Str) : Str :=
  (fsm (resolvePath cwd p)).getD []

/-- Model of `path.join(process.cwd(), 'public', u)`. -/
def pathJoinPublic (cwd u : Str) : Str :=
  match u with
  | [] => cwd ++ str "/public"
  | '/' :: _ => cwd ++ str "/public" ++ u
  | _ => cwd ++ str "/public/" ++ u

/-- Source `getImageNotFoundFilename(size)`. -/
def getImageNotFoundFilename (size : Str) : Str :=
  str "/images/image-not-available-" ++ size ++ str ".svg"

/-- Source `createFileHash(filePath)`: if the file exists, the first
`HASH_LENGTH` characters of the MD5 hex digest of its contents; otherwise
`undefined`. -/
def createFileHash (md5 : Str → Str) (cwd : Str) (fsm : Str → Option Str)
    (filePath : Str) : Option Str :=
  if existsSync cwd fsm filePath then
    some ((md5 (readFileSync cwd fsm filePath)).take HASH_LENGTH)
  else
    none

/-- JS `s.split('.')` for a one-character separator, character by character. -/
def splitOnDot : Str → List Str
  | [] => [[]]
  | c :: rest =>
    match splitOnDot rest with
    | [] => [[c]]
    | h :: t => if c = '.' then [] :: h :: t else (c :: h) :: t

/-- JS `parts.join('.')`. -/
def joinDot : List Str → Str
  | [] => []
  | [x] => x
  | x :: y :: xs => x ++ '.' :: joinDot (y :: xs)

/-- Source `addHashToUrl(inputUrl, hash)`: split on `.`, keep every segment
but the last, push the hash, push the last segment, join with `.`. -/
def addHashToUrl (inputUrl hash : Str) : Str :=
  let fileParts := splitOnDot inputUrl
  let newFileParts :=
    fileParts.take (fileParts.length - 1) ++ [hash, fileParts.getLastD []]
  joinDot newFileParts

/-- The `imageId` computed at the top of `getImageUrl`: `id`, or
`id + '-vv-' + variationId` when `variationId` is truthy. -/
def mkImageId (id : Str) (variationId : Option Str) : Str :=
  match variationId with
  | some v => if v.isEmpty then id else id ++ str "-vv-" ++ v
  | none => id

/-- The path probed with `fs.existsSync` in `getImageUrl`: the source's
`pathPrefix` (which always names the `full` size directory) followed by a
candidate extension. -/
def fullProbe (entityType imageId ext : Str) : Str :=
  (str "./public/images/" ++ entityType ++ str "s/" ++ FULL ++ str "/"
    ++ imageId) ++ ext

/-- The URL built by `getImageUrl`: the requested size variant is substituted
into the path while the extension is whichever one matched. -/
def imageUrlFor (entityType imageType imageId ext : Str) : Str :=
  (str "/images/" ++ entityType ++ str "s/" ++ imageType ++ str "/"
    ++ imageId) ++ ext

/-- The three candidate extensions, in the order the source probes them. -/
def imageExts : List Str := [str ".png", str ".jpg", str ".jpeg"]

/-- The probing cascade inside `getImageUrl`, after the recognized-size guard
and the computation of `imageId`: try `.png`, then `.jpg`, then `.jpeg`
against the full-size directory and return the URL for the requested size
with the first extension that matched, together with the probes made. -/
def getImageUrlBody (cwd : Str) (fsm : Str → Option Str)
    (entityType imageType imageId : Str) : Option Str × List Str :=
  if existsSync cwd fsm (fullProbe entityType imageId (str ".png")) then
    (some (imageUrlFor entityType imageType imageId (str ".png")),
      [fullProbe entityType imageId (str ".png")])
  else if existsSync cwd fsm (fullProbe entityType imageId (str ".jpg")) then
    (some (imageUrlFor entityType imageType imageId (str ".jpg")),
      [fullProbe entityType imageId (str ".png"),
       fullProbe entityType imageId (str ".jpg")])
  else if existsSync cwd fsm (fullProbe entityType imageId (str ".jpeg")) then
    (some (imageUrlFor entityType imageType imageId (str ".jpeg")),
      [fullProbe entityType imageId (str ".png"),
       fullProbe entityType imageId (str ".jpg"),
       fullProbe entityType imageId (str ".jpeg")])
  else
    (none,
      [fullProbe entityType imageId (str ".png"),
       fullProbe entityType imageId (str ".jpg"),
       fullProbe entityType imageId (str ".jpeg")])

/-- Source `getImageUrl(entityType, imageType, id, variationId)`, instrumented
to also return the list of paths probed with `fs.existsSync`, in order. -/
def getImageUrlP (cwd : Str) (fsm : Str → Option Str)
    (entityType imageType id : Str) (variationId : Option Str) :
    Option Str × List Str :=
  if imageType = THUMB ∨ imageType = MEDIUM ∨ imageType = FULL then
    getImageUrlBody cwd fsm entityType imageType (mkImageId id variationId)
  else
    (none, [])

/-- Source `getImageUrl`, result only. -/
def getImageUrl (cwd : Str) (fsm : Str → Option Str)
    (entityType imageType id : Str) (variationId : Option Str) : Option Str :=
  (getImageUrlP cwd fsm entityType imageType id variationId).1

/-- Source `computeStaticAssetUrl(inputUrl, computedHash)`, instrumented with
the number of `createFileHash` invocations performed. -/
def computeStaticAssetUrlC (md5 : Str → Str) (cwd : Str)
    (fsm : Str → Option Str) (inputUrl : JsVal) (computedHash : Option Str) :
    Option Str × Nat :=
  match inputUrl with
  | .str s =>
    let hc : Option Str × Nat :=
      if truthyOpt computedHash then (computedHash, 0)
      else (createFileHash md5 cwd fsm (pathJoinPublic cwd s), 1)
    if truthyOpt hc.1 then (some (addHashToUrl s (hc.1.getD [])), hc.2)
    else (some s, hc.2)
  | _ => (none, 0)

/-- The record returned by `getEntityImageData`; in JS each field holds the
result of `computeStaticAssetUrl`, which may be `undefined`. -/
structure ImageData where
  thumb : Option Str
  medium : Option Str
  full : Option Str
deriving DecidableEq

/-- Source `getEntityImageData(entityType, id, variationId,
usePlaceholderImage)`, instrumented with the number of `createFileHash`
invocations performed. -/
def getEntityImageDataC (md5 : Str → Str) (cwd : Str)
    (fsm : Str → Option Str) (entityType id : Str) (variationId : Option Str)
    (usePlaceholderImage : Bool) : Option ImageData × Nat :=
  let url := getImageUrl cwd fsm entityType FULL id variationId
  if truthyOpt url then
    let u := url.getD []
    let hash := createFileHash md5 cwd fsm (pathJoinPublic cwd u)
    let t := computeStaticAssetUrlC md5 cwd fsm
      (optToJs (getImageUrl cwd fsm entityType THUMB id variationId)) hash
    let m := computeStaticAssetUrlC md5 cwd fsm
      (optToJs (getImageUrl cwd fsm entityType MEDIUM id variationId)) hash
    let f := computeStaticAssetUrlC md5 cwd fsm
      (optToJs (getImageUrl cwd fsm entityType FULL id variationId)) hash
    (some ⟨t.1, m.1, f.1⟩, 1 + t.2 + m.2 + f.2)
  else
    if usePlaceholderImage then
      (some ⟨some (getImageNotFoundFilename THUMB),
             some (getImageNotFoundFilename MEDIUM),
             some (getImageNotFoundFilename FULL)⟩, 0)
    else
      (none, 0)

/-- The process-wide `staticCache`: an insertion-shadowing association list
from key to stored JS value (`undefined` or a string). -/
abbrev Cache := List (Str × Option Str)

/-- Property lookup `staticCache[u]` before coercion to a boolean:
`none` when the key is absent, otherwise the stored value. -/
def cacheLookup : Cache → Str → Option (Option Str)
  | [], _ => none
  | (k, v) :: rest, u => if k = u then some v else cacheLookup rest u

/-- Source `getCacheBustedUrl(inputUrl)` for a string input, instrumented
with the number of `createFileHash` invocations performed; returns the
result, the cache after the call, and that count. -/
def getCacheBustedUrlC (md5 : Str → Str) (cwd : Str)
    (fsm : Str → Option Str) (cache : Cache) (inputUrl : Str) :
    Option Str × Cache × Nat :=
  let cached := (cacheLookup cache inputUrl).bind (fun v => v)
  if truthyOpt cached then
    (cached, cache, 0)
  else
    let r := computeStaticAssetUrlC md5 cwd fsm (.str inputUrl) none
    (r.1, (inputUrl, r.1) :: cache, r.2)

/-- The split of a string is never the empty list of segments. -/
theorem splitOnDot_ne_nil (s : Str) : splitOnDot s ≠ [] := by
  cases s with
  | nil => simp [splitOnDot]
  | cons c rest =>
    simp only [splitOnDot]
    cases h : splitOnDot rest with
    | nil => simp
    | cons hd tl => by_cases hc : c = '.' <;> simp [hc]

/-- Splitting a dot-free string yields the single segment equal to it. -/
theorem splitOnDot_eq_single (s : Str) (h : '.' ∉ s) : splitOnDot s = [s] := by
  induction s with
  | nil => rfl
  | cons c rest ih =>
    have hc : c ≠ '.' := fun e => h (by simp [e])
    have hr : '.' ∉ rest := fun m => h (List.mem_cons_of_mem _ m)
    simp [splitOnDot, ih hr, hc]

/-- Splitting peels a dot-free leading segment off at the first dot. -/
theorem splitOnDot_append_dot (a t : Str) (h : '.' ∉ a) :
    splitOnDot (a ++ '.' :: t) = a :: splitOnDot t := by
  induction a with
  | nil =>
    simp only [List.nil_append]
    cases ht : splitOnDot t with
    | nil => exact absurd ht (splitOnDot_ne_nil t)
    | cons hd tl => simp [splitOnDot, ht]
  | cons c a ih =>
    have hc : c ≠ '.' := fun e => h (by simp [e])
    have ha : '.' ∉ a := fun m => h (List.mem_cons_of_mem _ m)
    rw [List.cons_append]
    simp only [splitOnDot]
    rw [ih ha]
    simp [hc]

/-- Every segment produced by the split is dot-free. -/
theorem not_dot_mem_splitOnDot (s : Str) : ∀ x ∈ splitOnDot s, '.' ∉ x := by
  induction s with
  | nil => intro x hx; simp [splitOnDot] at hx; simp [hx]
  | cons c rest ih =>
    intro x hx
    cases hr : splitOnDot rest with
    | nil => exact absurd hr (splitOnDot_ne_nil rest)
    | cons hd tl =>
      simp only [splitOnDot, hr] at hx
      by_cases hc : c = '.'
      · simp only [hc, if_pos rfl] at hx
        rcases List.mem_cons.mp hx with h1 | h2
        · simp [h1]
        · exact ih x (hr ▸ h2)
      · simp only [if_neg hc] at hx
        rcases List.mem_cons.mp hx with h1 | h2
        · subst h1
          intro hm
          rcases List.mem_cons.mp hm with h3 | h4
          · exact hc h3.symm
          · exact ih hd (hr ▸ List.mem_cons_self hd tl) h4
        · exact ih x (hr ▸ List.mem_cons_of_mem hd h2)

/-- Joining a nonempty list of dot-free segments and splitting again is the
identity. -/
theorem splitOnDot_joinDot (L : List Str) (hne : L ≠ [])
    (h : ∀ x ∈ L, '.' ∉ x) : splitOnDot (joinDot L) = L := by
  induction L with
  | nil => exact absurd rfl hne
  | cons x L ih =>
    cases L with
    | nil => simp [joinDot, splitOnDot_eq_single x (h x (by simp))]
    | cons y M =>
      have hx : '.' ∉ x := h x (by simp)
      have : joinDot (x :: y :: M) = x ++ '.' :: joinDot (y :: M) := rfl
      rw [this, splitOnDot_append_dot x _ hx,
        ih (by simp) (fun z hz => h z (List.mem_cons_of_mem _ hz))]

/-- The trailing segment with default is a member of a nonempty list. -/
theorem getLastD_mem {α : Type} (L : List α) (d : α) (hne : L ≠ []) :
    L.getLastD d ∈ L := by
  cases L with
  | nil => exact absurd rfl hne
  | cons a l =>
    rw [List.getLastD_eq_getLast?, List.getLast?_eq_getLast (a :: l) (by simp)]
    simp [List.getLast_mem]

/-- The spec's own description of the URL hash splicer, written from the
spec's words: split the string on dots, keep all segments except the last,
append the hash as a new segment, then append the original last segment, and
join everything with dots. -/
def addHashToUrlSpec (u hash : Str) : Str :=
  joinDot ((splitOnDot u).dropLast ++ [hash] ++ [(splitOnDot u).getLastD []])

/-- C4: for every input containing at least one dot and every non-empty hash,
`addHashToUrl` agrees with the spec's split/rejoin description, and in
particular `addHashToUrl "a/b/name.ext" "h1234ab" = "a/b/name.h1234ab.ext"`. -/
theorem addHashToUrl_matches_spec (u hash : Str) (hu : '.' ∈ u)
    (hh : hash ≠ []) :
    addHashToUrl u hash = addHashToUrlSpec u hash ∧
      addHashToUrl (str "a/b/name.ext") (str "h1234ab")
        = str "a/b/name.h1234ab.ext" := by
  constructor
  · simp [addHashToUrl, addHashToUrlSpec, List.dropLast_eq_take]
  · decide

/-- Witness for C4 at the spec's own example input. -/
theorem addHashToUrl_matches_spec_witness :
    ('.' ∈ str "a/b/name.ext") ∧ str "h1234ab" ≠ [] ∧
      (addHashToUrl (str "a/b/name.ext") (str "h1234ab")
          = addHashToUrlSpec (str "a/b/name.ext") (str "h1234ab") ∧
        addHashToUrl (str "a/b/name.ext") (str "h1234ab")
          = str "a/b/name.h1234ab.ext") :=
  ⟨by decide, by decide,
    addHashToUrl_matches_spec (str "a/b/name.ext") (str "h1234ab")
      (by decide) (by decide)⟩

/-- C10: on an input with no dot at all, the hash becomes the first segment
and the whole original string becomes the trailing segment. -/
theorem addHashToUrl_noDot (u hash : Str) (hu : '.' ∉ u) :
    addHashToUrl u hash = hash ++ str "." ++ u := by
  simp [addHashToUrl, splitOnDot_eq_single u hu, joinDot, str]

/-- Witness for C10 at a concrete dot-free input. -/
theorem addHashToUrl_noDot_witness :
    ('.' ∉ str "abc") ∧
      addHashToUrl (str "abc") (str "h") = str "h" ++ str "." ++ str "abc" :=
  ⟨by decide, addHashToUrl_noDot (str "abc") (str "h") (by decide)⟩

/-- C3 counterexample: re-applying `addHashToUrl` with the same hash is not
idempotent; the hash segment is inserted a second time. -/
theorem addHashToUrl_not_idempotent :
    addHashToUrl (addHashToUrl (str "a.b") (str "h")) (str "h")
      ≠ addHashToUrl (str "a.b") (str "h") := by decide

/-- C3 (amended): re-applying `addHashToUrl` always inserts one more hash
segment just before the trailing segment, whether or not the two hashes are
equal: the segments of the second result are init ++ [h1, h2, last], and both
hashes occur as segments of the final result.  With h1 = h2 this duplicates
the hash segment, so re-application with the same hash is not idempotent. -/
theorem addHashToUrl_reapply (u h1 h2 : Str) (hu : '.' ∈ u)
    (hh1 : '.' ∉ h1) (hh2 : '.' ∉ h2) :
    addHashToUrl (addHashToUrl u h1) h2
      = joinDot ((splitOnDot u).take ((splitOnDot u).length - 1)
          ++ [h1, h2, (splitOnDot u).getLastD []])
    ∧ h1 ∈ splitOnDot (addHashToUrl (addHashToUrl u h1) h2)
    ∧ h2 ∈ splitOnDot (addHashToUrl (addHashToUrl u h1) h2) := by
  have hLne : splitOnDot u ≠ [] := splitOnDot_ne_nil u
  have hMfree : ∀ x ∈ (splitOnDot u).take ((splitOnDot u).length - 1),
      '.' ∉ x :=
    fun x hx => not_dot_mem_splitOnDot u x (List.take_subset _ _ hx)
  have hzfree : '.' ∉ (splitOnDot u).getLastD [] :=
    not_dot_mem_splitOnDot u _ (getLastD_mem _ [] hLne)
  have hfree1 : ∀ x ∈ (splitOnDot u).take ((splitOnDot u).length - 1)
      ++ [h1, (splitOnDot u).getLastD []], '.' ∉ x := by
    intro x hx
    rcases List.mem_append.mp hx with h | h
    · exact hMfree x h
    · simp only [List.mem_cons, List.mem_singleton] at h
      rcases h with h | h | h
      · exact h ▸ hh1
      · exact h ▸ hzfree
      · simp at h
  have split1 : splitOnDot (addHashToUrl u h1)
      = (splitOnDot u).take ((splitOnDot u).length - 1)
        ++ [h1, (splitOnDot u).getLastD []] := by
    have step1 : addHashToUrl u h1
        = joinDot ((splitOnDot u).take ((splitOnDot u).length - 1)
            ++ [h1, (splitOnDot u).getLastD []]) := rfl
    rw [step1]
    exact splitOnDot_joinDot _ (by simp) hfree1
  have step2 : addHashToUrl (addHashToUrl u h1) h2
      = joinDot ((splitOnDot u).take ((splitOnDot u).length - 1)
          ++ [h1, h2, (splitOnDot u).getLastD []]) := by
    have unfold2 : addHashToUrl (addHashToUrl u h1) h2
        = joinDot ((splitOnDot (addHashToUrl u h1)).take
              ((splitOnDot (addHashToUrl u h1)).length - 1)
            ++ [h2, (splitOnDot (addHashToUrl u h1)).getLastD []]) := rfl
    rw [unfold2, split1]
    have e2 : (splitOnDot u).take ((splitOnDot u).length - 1)
        ++ [h1, (splitOnDot u).getLastD []]
        = ((splitOnDot u).take ((splitOnDot u).length - 1) ++ [h1])
          ++ [(splitOnDot u).getLastD []] := by simp
    rw [e2]
    have e1 : (((splitOnDot u).take ((splitOnDot u).length - 1) ++ [h1])
        ++ [(splitOnDot u).getLastD []]).length - 1
        = ((splitOnDot u).take ((splitOnDot u).length - 1) ++ [h1]).length :=
      by simp
    rw [e1, List.take_left' rfl, List.getLastD_concat]
    simp
  have hfree2 : ∀ x ∈ (splitOnDot u).take ((splitOnDot u).length - 1)
      ++ [h1, h2, (splitOnDot u).getLastD []], '.' ∉ x := by
    intro x hx
    rcases List.mem_append.mp hx with h | h
    · exact hMfree x h
    · simp only [List.mem_cons, List.mem_singleton] at h
      rcases h with h | h | h | h
      · exact h ▸ hh1
      · exact h ▸ hh2
      · exact h ▸ hzfree
      · simp at h
  have split2 : splitOnDot (addHashToUrl (addHashToUrl u h1) h2)
      = (splitOnDot u).take ((splitOnDot u).length - 1)
        ++ [h1, h2, (splitOnDot u).getLastD []] := by
    rw [step2]
    exact splitOnDot_joinDot _ (by simp) hfree2
  refine ⟨step2, ?_, ?_⟩
  · rw [split2]; simp
  · rw [split2]; simp

/-- Witness for C3's amended statement at a concrete input with two distinct
hashes. -/
theorem addHashToUrl_reapply_witness :
    ('.' ∈ str "a.b") ∧
      (addHashToUrl (addHashToUrl (str "a.b") (str "h")) (str "k")
        = joinDot ((splitOnDot (str "a.b")).take
              ((splitOnDot (str "a.b")).length - 1)
            ++ [str "h", str "k", (splitOnDot (str "a.b")).getLastD []])
      ∧ str "h" ∈ splitOnDot
          (addHashToUrl (addHashToUrl (str "a.b") (str "h")) (str "k"))
      ∧ str "k" ∈ splitOnDot
          (addHashToUrl (addHashToUrl (str "a.b") (str "h")) (str "k"))) :=
  ⟨by decide,
    addHashToUrl_reapply (str "a.b") (str "h") (str "k")
      (by decide) (by decide) (by decide)⟩

/-- Resolving a path that begins with a dot prepends the working directory. -/
theorem resolvePath_dot (cwd rest : Str) :
    resolvePath cwd ('.' :: rest) = cwd ++ rest := rfl

/-- Model of `path.join` on a slash-headed suffix. -/
theorem pathJoinPublic_slash (cwd rest : Str) :
    pathJoinPublic cwd ('/' :: rest) = cwd ++ str "/public" ++ '/' :: rest :=
  rfl

/-- Resolving a path whose head is not a dot is the identity. -/
theorem resolvePath_eq_self (cwd p : Str) (hp : ∀ r, p ≠ '.' :: r) :
    resolvePath cwd p = p := by
  cases p with
  | nil => rfl
  | cons c t =>
    by_cases hc : c = '.'
    · subst hc; exact absurd rfl (hp t)
    · unfold resolvePath
      split
      · next rest heq => exact absurd (List.cons.injEq .. ▸ heq) (by simp [hc])
      · rfl

/-- When the working directory does not start with a dot, neither does any
path produced by the model of `path.join(process.cwd(), 'public', u)`. -/
theorem pathJoinPublic_not_dot (cwd u : Str) (hcwd : cwd.head? ≠ some '.') :
    ∀ r, pathJoinPublic cwd u ≠ '.' :: r := by
  intro r hEq
  have hpub : str "/public" = '/' :: str "public" := rfl
  have hpub2 : str "/public/" = '/' :: str "public/" := rfl
  rcases cwd with _ | ⟨c, cw⟩
  · unfold pathJoinPublic at hEq
    split at hEq <;>
      · simp only [List.nil_append, hpub, hpub2, List.cons_append,
          List.cons.injEq] at hEq
        exact absurd hEq.1 (by decide)
  · unfold pathJoinPublic at hEq
    split at hEq <;>
      · simp only [List.cons_append, List.append_assoc,
          List.cons.injEq] at hEq
        exact hcwd (by simp [hEq.1])

/-- The probe path used by `getImageUrl` resolves to the very same absolute
path that `getEntityImageData` later hands to the hasher for the
corresponding URL. -/
theorem resolvePath_fullProbe (cwd et m ext : Str) :
    resolvePath cwd (fullProbe et m ext)
      = pathJoinPublic cwd (imageUrlFor et FULL m ext) := by
  have h1 : str "./public/images/" = '.' :: str "/public/images/" := rfl
  have h2 : str "/images/" = '/' :: str "images/" := rfl
  have e1 : fullProbe et m ext
      = '.' :: (str "/public/images/"
          ++ (et ++ (str "s/" ++ (FULL ++ (str "/" ++ (m ++ ext)))))) := by
    simp [fullProbe, h1, List.cons_append, List.append_assoc]
  have e2 : imageUrlFor et FULL m ext
      = '/' :: (str "images/"
          ++ (et ++ (str "s/" ++ (FULL ++ (str "/" ++ (m ++ ext)))))) := by
    simp [imageUrlFor, h2, List.cons_append, List.append_assoc]
  rw [e1, resolvePath_dot, e2, pathJoinPublic_slash]
  have h3 : str "/public/images/" = str "/public" ++ '/' :: str "images/" :=
    rfl
  rw [h3]
  simp [List.cons_append, List.append_assoc]

/-- URLs built by `getImageUrl` are never the empty string. -/
theorem imageUrlFor_ne_nil (et ty m ext : Str) : imageUrlFor et ty m ext ≠ [] := by
  have h2 : str "/images/" = '/' :: str "images/" := rfl
  simp [imageUrlFor, h2, List.cons_append, List.append_assoc]

/-- With a recognized size tag, `getImageUrl` runs the probing cascade on the
computed `imageId`. -/
theorem getImageUrlP_valid (cwd : Str) (fsm : Str → Option Str)
    (entityType imageType id : Str) (variationId : Option Str)
    (hty : imageType = THUMB ∨ imageType = MEDIUM ∨ imageType = FULL) :
    getImageUrlP cwd fsm entityType imageType id variationId
      = getImageUrlBody cwd fsm entityType imageType
          (mkImageId id variationId) := by
  simp [getImageUrlP, hty]

/-- Helper: each candidate probe path is a full-directory probe with one of
the three extensions. -/
theorem exists_ext_of_probe (et m p : Str)
    (hp : p = fullProbe et m (str ".png") ∨ p = fullProbe et m (str ".jpg")
      ∨ p = fullProbe et m (str ".jpeg")) :
    ∃ ext ∈ imageExts, p = fullProbe et m ext := by
  rcases hp with rfl | rfl | rfl
  · exact ⟨_, by simp [imageExts], rfl⟩
  · exact ⟨_, by simp [imageExts], rfl⟩
  · exact ⟨_, by simp [imageExts], rfl⟩

/-- C1: with a recognized size tag, every path `getImageUrl` probes is the
full-directory path for one of the three extensions — never a thumb or
medium path — and when a URL is returned it carries the requested size
variant in its path while keeping whichever extension matched under the
full directory. -/
theorem getImageUrl_probes_full_only (cwd : Str) (fsm : Str → Option Str)
    (entityType imageType id : Str) (variationId : Option Str)
    (hty : imageType = THUMB ∨ imageType = MEDIUM ∨ imageType = FULL) :
    (∀ p ∈ (getImageUrlP cwd fsm entityType imageType id variationId).2,
      ∃ ext ∈ imageExts, p = fullProbe entityType (mkImageId id variationId) ext)
    ∧ (∀ u,
        (getImageUrlP cwd fsm entityType imageType id variationId).1 = some u →
        ∃ ext ∈ imageExts,
          existsSync cwd fsm
            (fullProbe entityType (mkImageId id variationId) ext) = true
          ∧ u = imageUrlFor entityType imageType
              (mkImageId id variationId) ext) := by
  rw [getImageUrlP_valid cwd fsm entityType imageType id variationId hty]
  constructor
  · intro p hp
    unfold getImageUrlBody at hp
    split_ifs at hp <;>
      exact exists_ext_of_probe _ _ _ (by simp at hp; tauto)
  · intro u hu
    unfold getImageUrlBody at hu
    split_ifs at hu with h1 h2 h3
    · simp only at hu
      injection hu with hu
      exact ⟨str ".png", by simp [imageExts], h1, hu.symm⟩
    · simp only at hu
      injection hu with hu
      exact ⟨str ".jpg", by simp [imageExts], h2, hu.symm⟩
    · simp only at hu
      injection hu with hu
      exact ⟨str ".jpeg", by simp [imageExts], h3, hu.symm⟩

/-- Witness for C1: a filesystem holding only a `.jpeg` full-size file, with
the thumb variant requested. -/
theorem getImageUrl_probes_full_only_witness :
    (THUMB = THUMB ∨ THUMB = MEDIUM ∨ THUMB = FULL) ∧
      (∃ ext ∈ imageExts,
        existsSync (str "/app")
          (fun p => if p = str "/app/public/images/items/full/5.jpeg"
            then some (str "JPEG") else none)
          (fullProbe (str "item") (mkImageId (str "5") none) ext) = true
        ∧ str "/images/items/thumb/5.jpeg"
            = imageUrlFor (str "item") THUMB (mkImageId (str "5") none) ext) :=
  ⟨Or.inl rfl,
    (getImageUrl_probes_full_only (str "/app")
      (fun p => if p = str "/app/public/images/items/full/5.jpeg"
        then some (str "JPEG") else none)
      (str "item") THUMB (str "5") none (Or.inl rfl)).2
      (str "/images/items/thumb/5.jpeg") (by decide)⟩

/-- C2: the probes happen in the fixed order png, jpg, jpeg; the first
extension whose full-size file exists wins, and the probe list is always a
prefix of the full three-probe cascade. -/
theorem getImageUrl_ext_order (cwd : Str) (fsm : Str → Option Str)
    (entityType imageType id : Str) (variationId : Option Str)
    (hty : imageType = THUMB ∨ imageType = MEDIUM ∨ imageType = FULL) :
    (existsSync cwd fsm
        (fullProbe entityType (mkImageId id variationId) (str ".png")) = true →
      getImageUrl cwd fsm entityType imageType id variationId
        = some (imageUrlFor entityType imageType
            (mkImageId id variationId) (str ".png")))
    ∧ (existsSync cwd fsm
          (fullProbe entityType (mkImageId id variationId) (str ".png"))
            = false →
       existsSync cwd fsm
          (fullProbe entityType (mkImageId id variationId) (str ".jpg"))
            = true →
      getImageUrl cwd fsm entityType imageType id variationId
        = some (imageUrlFor entityType imageType
            (mkImageId id variationId) (str ".jpg")))
    ∧ (existsSync cwd fsm
          (fullProbe entityType (mkImageId id variationId) (str ".png"))
            = false →
       existsSync cwd fsm
          (fullProbe entityType (mkImageId id variationId) (str ".jpg"))
            = false →
       existsSync cwd fsm
          (fullProbe entityType (mkImageId id variationId) (str ".jpeg"))
            = true →
      getImageUrl cwd fsm entityType imageType id variationId
        = some (imageUrlFor entityType imageType
            (mkImageId id variationId) (str ".jpeg")))
    ∧ ((getImageUrlP cwd fsm entityType imageType id variationId).2
         = [fullProbe entityType (mkImageId id variationId) (str ".png")]
       ∨ (getImageUrlP cwd fsm entityType imageType id variationId).2
         = [fullProbe entityType (mkImageId id variationId) (str ".png"),
            fullProbe entityType (mkImageId id variationId) (str ".jpg")]
       ∨ (getImageUrlP cwd fsm entityType imageType id variationId).2
         = [fullProbe entityType (mkImageId id variationId) (str ".png"),
            fullProbe entityType (mkImageId id variationId) (str ".jpg"),
            fullProbe entityType (mkImageId id variationId) (str ".jpeg")]) := by
  rw [getImageUrl, getImageUrlP_valid cwd fsm entityType imageType id
    variationId hty]
  refine ⟨?_, ?_, ?_, ?_⟩
  · intro h1
    unfold getImageUrlBody
    simp [h1]
  · intro h1 h2
    unfold getImageUrlBody
    simp [h1, h2]
  · intro h1 h2 h3
    unfold getImageUrlBody
    simp [h1, h2, h3]
  · unfold getImageUrlBody
    split_ifs <;> simp

/-- Witness for C2: with both `5.png` and `5.jpg` on disk the returned URL is
the `.png` one. -/
theorem getImageUrl_ext_order_witness :
    (MEDIUM = THUMB ∨ MEDIUM = MEDIUM ∨ MEDIUM = FULL) ∧
      existsSync (str "/app")
        (fun p => if p = str "/app/public/images/items/full/5.png"
            then some (str "PNG")
          else if p = str "/app/public/images/items/full/5.jpg"
            then some (str "JPG") else none)
        (fullProbe (str "item") (mkImageId (str "5") none) (str ".png"))
        = true ∧
      getImageUrl (str "/app")
        (fun p => if p = str "/app/public/images/items/full/5.png"
            then some (str "PNG")
          else if p = str "/app/public/images/items/full/5.jpg"
            then some (str "JPG") else none)
        (str "item") MEDIUM (str "5") none
        = some (imageUrlFor (str "item") MEDIUM
            (mkImageId (str "5") none) (str ".png")) :=
  ⟨Or.inr (Or.inl rfl), by decide,
    (getImageUrl_ext_order (str "/app")
      (fun p => if p = str "/app/public/images/items/full/5.png"
          then some (str "PNG")
        else if p = str "/app/public/images/items/full/5.jpg"
          then some (str "JPG") else none)
      (str "item") MEDIUM (str "5") none (Or.inr (Or.inl rfl))).1
      (by decide)⟩

/-- C9: with an unrecognized size tag, `getImageUrl` returns no result and
performs no filesystem probe, regardless of the filesystem contents. -/
theorem getImageUrl_bad_size (cwd : Str) (fsm : Str → Option Str)
    (entityType imageType id : Str) (variationId : Option Str)
    (hty : ¬(imageType = THUMB ∨ imageType = MEDIUM ∨ imageType = FULL)) :
    getImageUrlP cwd fsm entityType imageType id variationId = (none, []) := by
  simp [getImageUrlP, hty]

/-- Witness for C9: the tag "huge" on a filesystem where every file exists. -/
theorem getImageUrl_bad_size_witness :
    (¬(str "huge" = THUMB ∨ str "huge" = MEDIUM ∨ str "huge" = FULL)) ∧
      getImageUrlP (str "/app") (fun _ => some (str "X")) (str "item")
        (str "huge") (str "5") none = (none, []) :=
  ⟨by decide,
    getImageUrl_bad_size (str "/app") (fun _ => some (str "X")) (str "item")
      (str "huge") (str "5") none (by decide)⟩

/-- Truthiness of a present non-empty string. -/
theorem truthyOpt_some (s : Str) (h : s ≠ []) : truthyOpt (some s) = true := by
  cases s with
  | nil => exact absurd rfl h
  | cons a l => simp [truthyOpt]

/-- C6: when none of the three full-size candidates exists on disk,
`getEntityImageData` returns the three fixed placeholder paths under the
default placeholder flag, and no result when the flag is false; either way
it performs no hash computation. -/
theorem getEntityImageData_no_image (md5 : Str → Str) (cwd : Str)
    (fsm : Str → Option Str) (entityType id : Str) (variationId : Option Str)
    (hnone : ∀ ext ∈ imageExts,
      existsSync cwd fsm
        (fullProbe entityType (mkImageId id variationId) ext) = false) :
    getEntityImageDataC md5 cwd fsm entityType id variationId true
      = (some ⟨some (str "/images/image-not-available-thumb.svg"),
               some (str "/images/image-not-available-medium.svg"),
               some (str "/images/image-not-available-full.svg")⟩, 0)
    ∧ getEntityImageDataC md5 cwd fsm entityType id variationId false
      = (none, 0) := by
  have h1 := hnone (str ".png") (by simp [imageExts])
  have h2 := hnone (str ".jpg") (by simp [imageExts])
  have h3 := hnone (str ".jpeg") (by simp [imageExts])
  have hfull : getImageUrl cwd fsm entityType FULL id variationId = none := by
    rw [getImageUrl,
      getImageUrlP_valid cwd fsm entityType FULL id variationId
        (Or.inr (Or.inr rfl))]
    unfold getImageUrlBody
    simp [h1, h2, h3]
  have hT : getImageNotFoundFilename THUMB
      = str "/images/image-not-available-thumb.svg" := rfl
  have hM : getImageNotFoundFilename MEDIUM
      = str "/images/image-not-available-medium.svg" := rfl
  have hF : getImageNotFoundFilename FULL
      = str "/images/image-not-available-full.svg" := rfl
  constructor <;>
    simp [getEntityImageDataC, hfull, truthyOpt, hT, hM, hF]

/-- Witness for C6 on an empty filesystem. -/
theorem getEntityImageData_no_image_witness :
    (∀ ext ∈ imageExts,
      existsSync (str "/app") (fun _ => none)
        (fullProbe (str "item") (mkImageId (str "9") none) ext) = false) ∧
      (getEntityImageDataC (fun _ => str "d41d8cd") (str "/app")
          (fun _ => none) (str "item") (str "9") none true
        = (some ⟨some (str "/images/image-not-available-thumb.svg"),
                 some (str "/images/image-not-available-medium.svg"),
                 some (str "/images/image-not-available-full.svg")⟩, 0)
      ∧ getEntityImageDataC (fun _ => str "d41d8cd") (str "/app")
          (fun _ => none) (str "item") (str "9") none false
        = (none, 0)) :=
  ⟨by decide,
    getEntityImageData_no_image (fun _ => str "d41d8cd") (str "/app")
      (fun _ => none) (str "item") (str "9") none (by decide)⟩

/-- C8: `computeStaticAssetUrl` ignores the filesystem and returns no result
on a non-string input; on a string input it splices whichever hash is
obtained (the truthy precomputed one, else the freshly computed one) into
the URL, and falls back to the unchanged URL when no hash is obtained. -/
theorem computeStaticAssetUrl_contract (md5 : Str → Str) (cwd : Str)
    (fsm : Str → Option Str) (v : JsVal) (ch : Option Str) :
    (v.isStr = false → computeStaticAssetUrlC md5 cwd fsm v ch = (none, 0))
    ∧ (∀ s, v = .str s → ∀ hsh : Str,
        (ch = some hsh ∨ (truthyOpt ch = false ∧
          createFileHash md5 cwd fsm (pathJoinPublic cwd s) = some hsh)) →
        hsh ≠ [] →
        (computeStaticAssetUrlC md5 cwd fsm v ch).1
          = some (addHashToUrl s hsh))
    ∧ (∀ s, v = .str s → truthyOpt ch = false →
        truthyOpt (createFileHash md5 cwd fsm (pathJoinPublic cwd s))
          = false →
        (computeStaticAssetUrlC md5 cwd fsm v ch).1 = some s) := by
  refine ⟨?_, ?_, ?_⟩
  · intro hv
    cases v <;> simp_all [computeStaticAssetUrlC, JsVal.isStr]
  · rintro s rfl hsh hcase hne
    rcases hcase with rfl | ⟨hchF, hcomp⟩
    · simp [computeStaticAssetUrlC, truthyOpt_some hsh hne]
    · simp [computeStaticAssetUrlC, hchF, hcomp, truthyOpt_some hsh hne]
  · rintro s rfl hchF hcompF
    simp [computeStaticAssetUrlC, hchF, hcompF]

/-- Witness for C8: a numeric input yields no result and no file access. -/
theorem computeStaticAssetUrl_contract_witness :
    JsVal.isStr (JsVal.num 3) = false ∧
      computeStaticAssetUrlC (fun _ => str "d41d8cd") (str "/app")
        (fun _ => none) (JsVal.num 3) none = (none, 0) :=
  ⟨rfl,
    (computeStaticAssetUrl_contract (fun _ => str "d41d8cd") (str "/app")
      (fun _ => none) (JsVal.num 3) none).1 rfl⟩

/-- Splicing with an explicitly provided non-empty hash never rehashes. -/
theorem computeStatic_with_hash (md5 : Str → Str) (cwd : Str)
    (fsm : Str → Option Str) (u hsh : Str) (hne : hsh ≠ []) :
    computeStaticAssetUrlC md5 cwd fsm (.str u) (some hsh)
      = (some (addHashToUrl u hsh), 0) := by
  simp [computeStaticAssetUrlC, truthyOpt_some hsh hne]

/-- Core of C5: once the full-size URL is found with extension `ext`, the
aggregator hashes the file behind that URL exactly once and splices the same
hash into all three size-variant URLs. -/
theorem getEntityImageData_hash_case (md5 : Str → Str) (cwd : Str)
    (fsm : Str → Option Str) (entityType id : Str) (variationId : Option Str)
    (usePh : Bool) (ext : Str)
    (hcwd : cwd.head? ≠ some '.')
    (hmd5 : ∀ s, md5 s ≠ [])
    (hprobe : existsSync cwd fsm
      (fullProbe entityType (mkImageId id variationId) ext) = true)
    (hfull : getImageUrl cwd fsm entityType FULL id variationId
      = some (imageUrlFor entityType FULL (mkImageId id variationId) ext))
    (hthumb : getImageUrl cwd fsm entityType THUMB id variationId
      = some (imageUrlFor entityType THUMB (mkImageId id variationId) ext))
    (hmedium : getImageUrl cwd fsm entityType MEDIUM id variationId
      = some (imageUrlFor entityType MEDIUM (mkImageId id variationId) ext)) :
    ∃ hsh,
      createFileHash md5 cwd fsm (pathJoinPublic cwd
        (imageUrlFor entityType FULL (mkImageId id variationId) ext))
        = some hsh
      ∧ hsh ≠ []
      ∧ getEntityImageDataC md5 cwd fsm entityType id variationId usePh
        = (some ⟨some (addHashToUrl
                  (imageUrlFor entityType THUMB (mkImageId id variationId) ext)
                  hsh),
                 some (addHashToUrl
                  (imageUrlFor entityType MEDIUM (mkImageId id variationId) ext)
                  hsh),
                 some (addHashToUrl
                  (imageUrlFor entityType FULL (mkImageId id variationId) ext)
                  hsh)⟩, 1) := by
  have hres : resolvePath cwd (pathJoinPublic cwd
      (imageUrlFor entityType FULL (mkImageId id variationId) ext))
      = pathJoinPublic cwd
        (imageUrlFor entityType FULL (mkImageId id variationId) ext) :=
    resolvePath_eq_self _ _ (pathJoinPublic_not_dot cwd _ hcwd)
  have hex : existsSync cwd fsm (pathJoinPublic cwd
      (imageUrlFor entityType FULL (mkImageId id variationId) ext)) = true := by
    rw [existsSync, hres]
    rw [existsSync, resolvePath_fullProbe] at hprobe
    exact hprobe
  have hhash : createFileHash md5 cwd fsm (pathJoinPublic cwd
      (imageUrlFor entityType FULL (mkImageId id variationId) ext))
      = some ((md5 (readFileSync cwd fsm (pathJoinPublic cwd
          (imageUrlFor entityType FULL (mkImageId id variationId) ext)))).take
            HASH_LENGTH) := by
    simp [createFileHash, hex]
  have hne : (md5 (readFileSync cwd fsm (pathJoinPublic cwd
      (imageUrlFor entityType FULL (mkImageId id variationId) ext)))).take
        HASH_LENGTH ≠ [] := by
    intro hcontra
    cases hmc : md5 (readFileSync cwd fsm (pathJoinPublic cwd
        (imageUrlFor entityType FULL (mkImageId id variationId) ext))) with
    | nil => exact hmd5 _ hmc
    | cons a l => rw [hmc] at hcontra; simp [HASH_LENGTH] at hcontra
  refine ⟨_, hhash, hne, ?_⟩
  have htr : truthyOpt (some
      (imageUrlFor entityType FULL (mkImageId id variationId) ext)) = true :=
    truthyOpt_some _ (imageUrlFor_ne_nil _ _ _ _)
  simp only [getEntityImageDataC, hfull, hthumb, hmedium, htr, if_pos,
    Option.getD_some, hhash, optToJs,
    computeStatic_with_hash md5 cwd fsm _ _ hne]

/-- C5: whenever some full-size image file exists on disk, the aggregator
returns thumb, medium and full URLs all spliced with one identical hash —
the hash of the file behind the full-size URL resolved under the public
root — and the hash computation runs exactly once. -/
theorem getEntityImageData_single_hash (md5 : Str → Str) (cwd : Str)
    (fsm : Str → Option Str) (entityType id : Str) (variationId : Option Str)
    (usePh : Bool)
    (hcwd : cwd.head? ≠ some '.')
    (hmd5 : ∀ s, md5 s ≠ [])
    (hex : ∃ ext ∈ imageExts, existsSync cwd fsm
      (fullProbe entityType (mkImageId id variationId) ext) = true) :
    ∃ hsh fullUrl thumbUrl mediumUrl,
      getImageUrl cwd fsm entityType FULL id variationId = some fullUrl
      ∧ getImageUrl cwd fsm entityType THUMB id variationId = some thumbUrl
      ∧ getImageUrl cwd fsm entityType MEDIUM id variationId = some mediumUrl
      ∧ createFileHash md5 cwd fsm (pathJoinPublic cwd fullUrl) = some hsh
      ∧ hsh ≠ []
      ∧ getEntityImageDataC md5 cwd fsm entityType id variationId usePh
        = (some ⟨some (addHashToUrl thumbUrl hsh),
                 some (addHashToUrl mediumUrl hsh),
                 some (addHashToUrl fullUrl hsh)⟩, 1) := by
  have hurl : ∀ ty, (ty = THUMB ∨ ty = MEDIUM ∨ ty = FULL) → ∀ e : Str,
      getImageUrlP cwd fsm entityType ty id variationId
        = getImageUrlBody cwd fsm entityType ty (mkImageId id variationId) :=
    fun ty hty _ => getImageUrlP_valid cwd fsm entityType ty id variationId hty
  by_cases h1 : existsSync cwd fsm
      (fullProbe entityType (mkImageId id variationId) (str ".png")) = true
  · have hu : ∀ ty, (ty = THUMB ∨ ty = MEDIUM ∨ ty = FULL) →
        getImageUrl cwd fsm entityType ty id variationId
          = some (imageUrlFor entityType ty
              (mkImageId id variationId) (str ".png")) := by
      intro ty hty
      rw [getImageUrl, getImageUrlP_valid cwd fsm entityType ty id
        variationId hty]
      unfold getImageUrlBody
      simp [h1]
    obtain ⟨hsh, hh, hne, heq⟩ := getEntityImageData_hash_case md5 cwd fsm
      entityType id variationId usePh (str ".png") hcwd hmd5 h1
      (hu FULL (Or.inr (Or.inr rfl))) (hu THUMB (Or.inl rfl))
      (hu MEDIUM (Or.inr (Or.inl rfl)))
    exact ⟨hsh, _, _, _, hu FULL (Or.inr (Or.inr rfl)),
      hu THUMB (Or.inl rfl), hu MEDIUM (Or.inr (Or.inl rfl)), hh, hne, heq⟩
  · by_cases h2 : existsSync cwd fsm
        (fullProbe entityType (mkImageId id variationId) (str ".jpg")) = true
    · have hu : ∀ ty, (ty = THUMB ∨ ty = MEDIUM ∨ ty = FULL) →
          getImageUrl cwd fsm entityType ty id variationId
            = some (imageUrlFor entityType ty
                (mkImageId id variationId) (str ".jpg")) := by
        intro ty hty
        rw [getImageUrl, getImageUrlP_valid cwd fsm entityType ty id
          variationId hty]
        unfold getImageUrlBody
        simp [h1, h2]
      obtain ⟨hsh, hh, hne, heq⟩ := getEntityImageData_hash_case md5 cwd fsm
        entityType id variationId usePh (str ".jpg") hcwd hmd5 h2
        (hu FULL (Or.inr (Or.inr rfl))) (hu THUMB (Or.inl rfl))
        (hu MEDIUM (Or.inr (Or.inl rfl)))
      exact ⟨hsh, _, _, _, hu FULL (Or.inr (Or.inr rfl)),
        hu THUMB (Or.inl rfl), hu MEDIUM (Or.inr (Or.inl rfl)), hh, hne, heq⟩
    · by_cases h3 : existsSync cwd fsm
          (fullProbe entityType (mkImageId id variationId) (str ".jpeg"))
            = true
      · have hu : ∀ ty, (ty = THUMB ∨ ty = MEDIUM ∨ ty = FULL) →
            getImageUrl cwd fsm entityType ty id variationId
              = some (imageUrlFor entityType ty
                  (mkImageId id variationId) (str ".jpeg")) := by
          intro ty hty
          rw [getImageUrl, getImageUrlP_valid cwd fsm entityType ty id
            variationId hty]
          unfold getImageUrlBody
          simp [h1, h2, h3]
        obtain ⟨hsh, hh, hne, heq⟩ := getEntityImageData_hash_case md5 cwd fsm
          entityType id variationId usePh (str ".jpeg") hcwd hmd5 h3
          (hu FULL (Or.inr (Or.inr rfl))) (hu THUMB (Or.inl rfl))
          (hu MEDIUM (Or.inr (Or.inl rfl)))
        exact ⟨hsh, _, _, _, hu FULL (Or.inr (Or.inr rfl)),
          hu THUMB (Or.inl rfl), hu MEDIUM (Or.inr (Or.inl rfl)), hh, hne, heq⟩
      · exfalso
        rcases hex with ⟨ext, hmem, hext⟩
        simp only [imageExts, List.mem_cons, List.not_mem_nil, or_false]
          at hmem
        rcases hmem with rfl | rfl | rfl
        · exact h1 hext
        · exact h2 hext
        · exact h3 hext

/-- A constant 16-character hasher never returns the empty string. -/
theorem constHasher_ne_nil :
    ∀ s : Str, (fun _ : Str => str "0123456789abcdef") s ≠ [] := by
  intro s
  show str "0123456789abcdef" ≠ []
  decide

/-- Witness for C5 on a one-file filesystem with a constant hasher. -/
theorem getEntityImageData_single_hash_witness :
    ((str "/app").head? ≠ some '.')
    ∧ (∀ s : Str, (fun _ : Str => str "0123456789abcdef") s ≠ [])
    ∧ (∃ ext ∈ imageExts, existsSync (str "/app")
        (fun p => if p = str "/app/public/images/villagers/full/7.png"
          then some (str "PNGDATA") else none)
        (fullProbe (str "villager") (mkImageId (str "7") none) ext) = true)
    ∧ (∃ hsh fullUrl thumbUrl mediumUrl,
        getImageUrl (str "/app")
          (fun p => if p = str "/app/public/images/villagers/full/7.png"
            then some (str "PNGDATA") else none)
          (str "villager") FULL (str "7") none = some fullUrl
        ∧ getImageUrl (str "/app")
            (fun p => if p = str "/app/public/images/villagers/full/7.png"
              then some (str "PNGDATA") else none)
            (str "villager") THUMB (str "7") none = some thumbUrl
        ∧ getImageUrl (str "/app")
            (fun p => if p = str "/app/public/images/villagers/full/7.png"
              then some (str "PNGDATA") else none)
            (str "villager") MEDIUM (str "7") none = some mediumUrl
        ∧ createFileHash (fun _ => str "0123456789abcdef") (str "/app")
            (fun p => if p = str "/app/public/images/villagers/full/7.png"
              then some (str "PNGDATA") else none)
            (pathJoinPublic (str "/app") fullUrl) = some hsh
        ∧ hsh ≠ []
        ∧ getEntityImageDataC (fun _ => str "0123456789abcdef") (str "/app")
            (fun p => if p = str "/app/public/images/villagers/full/7.png"
              then some (str "PNGDATA") else none)
            (str "villager") (str "7") none true
          = (some ⟨some (addHashToUrl thumbUrl hsh),
                   some (addHashToUrl mediumUrl hsh),
                   some (addHashToUrl fullUrl hsh)⟩, 1)) :=
  ⟨by decide, constHasher_ne_nil, by decide,
    getEntityImageData_single_hash (fun _ => str "0123456789abcdef")
      (str "/app")
      (fun p => if p = str "/app/public/images/villagers/full/7.png"
        then some (str "PNGDATA") else none)
      (str "villager") (str "7") none true (by decide) constHasher_ne_nil
      (by decide)⟩

/-- C7 counterexample: on the empty-string URL with no matching file, the
result cached after the first call is the falsy empty string, so the second
call misses the truthy-based cache check and performs the hash computation
again — one `createFileHash` invocation in each of the two calls. -/
theorem getCacheBustedUrl_recomputes_on_falsy :
    (getCacheBustedUrlC (fun _ => str "d41d8cd") (str "/app") (fun _ => none)
        [] []).2.2 = 1
    ∧ (getCacheBustedUrlC (fun _ => str "d41d8cd") (str "/app")
        (fun _ => none)
        (getCacheBustedUrlC (fun _ => str "d41d8cd") (str "/app")
          (fun _ => none) [] []).2.1 []).2.2 = 1 := by decide

/-- C7 (amended): two calls with the same input return the identical result;
a missing first call stores the result keyed by the input URL; and the
second call is a cache hit doing no hash computation provided the stored
result is truthy (a non-empty string). -/
theorem getCacheBustedUrl_twice (md5 : Str → Str) (cwd : Str)
    (fsm : Str → Option Str) (cache : Cache) (u : Str) :
    ((getCacheBustedUrlC md5 cwd fsm
        (getCacheBustedUrlC md5 cwd fsm cache u).2.1 u).1
      = (getCacheBustedUrlC md5 cwd fsm cache u).1)
    ∧ (truthyOpt ((cacheLookup cache u).bind (fun v => v)) = false →
        cacheLookup (getCacheBustedUrlC md5 cwd fsm cache u).2.1 u
          = some (getCacheBustedUrlC md5 cwd fsm cache u).1)
    ∧ (truthyOpt (getCacheBustedUrlC md5 cwd fsm cache u).1 = true →
        (getCacheBustedUrlC md5 cwd fsm
          (getCacheBustedUrlC md5 cwd fsm cache u).2.1 u).2.2 = 0) := by
  by_cases hc : truthyOpt ((cacheLookup cache u).bind (fun v => v)) = true
  · refine ⟨?_, ?_, ?_⟩
    · simp [getCacheBustedUrlC, hc]
    · intro hcontra
      rw [hc] at hcontra
      exact absurd hcontra (by decide)
    · intro _
      simp [getCacheBustedUrlC, hc]
  · have hcf : truthyOpt ((cacheLookup cache u).bind (fun v => v)) = false :=
      by simpa using hc
    have hfirst : getCacheBustedUrlC md5 cwd fsm cache u
        = ((computeStaticAssetUrlC md5 cwd fsm (.str u) none).1,
           (u, (computeStaticAssetUrlC md5 cwd fsm (.str u) none).1) :: cache,
           (computeStaticAssetUrlC md5 cwd fsm (.str u) none).2) := by
      simp [getCacheBustedUrlC, hcf]
    have hlook : cacheLookup
        ((u, (computeStaticAssetUrlC md5 cwd fsm (.str u) none).1) :: cache) u
        = some (computeStaticAssetUrlC md5 cwd fsm (.str u) none).1 := by
      simp [cacheLookup]
    refine ⟨?_, ?_, ?_⟩
    · rw [hfirst]
      by_cases hr : truthyOpt
          (computeStaticAssetUrlC md5 cwd fsm (.str u) none).1 = true
      · simp [getCacheBustedUrlC, hlook, hr]
      · have hrf : truthyOpt
            (computeStaticAssetUrlC md5 cwd fsm (.str u) none).1 = false :=
          by simpa using hr
        simp [getCacheBustedUrlC, hlook, hrf]
    · intro _
      rw [hfirst, hlook]
    · intro htr
      rw [hfirst] at htr ⊢
      simp only at htr
      simp [getCacheBustedUrlC, hlook, htr]

/-- Witness for C7's amended statement: a stylesheet URL whose file exists,
so the first result is truthy and the second call does no hash work. -/
theorem getCacheBustedUrl_twice_witness :
    truthyOpt (getCacheBustedUrlC (fun _ => str "0123456789abcdef")
        (str "/app")
        (fun p => if p = str "/app/public/app.css" then some (str "BODY")
          else none) [] (str "app.css")).1 = true
    ∧ (getCacheBustedUrlC (fun _ => str "0123456789abcdef") (str "/app")
        (fun p => if p = str "/app/public/app.css" then some (str "BODY")
          else none)
        (getCacheBustedUrlC (fun _ => str "0123456789abcdef") (str "/app")
          (fun p => if p = str "/app/public/app.css" then some (str "BODY")
            else none) [] (str "app.css")).2.1 (str "app.css")).2.2 = 0 :=
  ⟨by decide,
    (getCacheBustedUrl_twice (fun _ => str "0123456789abcdef") (str "/app")
      (fun p => if p = str "/app/public/app.css" then some (str "BODY")
        else none) [] (str "app.css")).2.2 (by decide)⟩

end VillagerDb
